import Mathlib

/-!
Verification of the summarizer core of `ai-commit-summarizer`
(`src/summarizer/mod.rs`, `src/summarizer/ollama.rs`, `src/summarizer/gemini.rs`).

Rust strings are embedded as `List Char`.  The HTTP transport is embedded as
an oracle function supplied to each provider: the provider hands the oracle
the URL and request body it built and receives the outcome of that exchange;
for the cloud provider the oracle additionally takes the attempt index, since
the retry loop re-issues the same request.  `serde_json::Value` is embedded
as the inductive `Json` below, with the same null-propagating indexing
behaviour.  The `f64` sampling knobs (`temperature`, `top_p`) are carried
opaquely — the code never computes with them, it only copies them into the
request body — so they are represented by `Rat`.
-/

/-- Unicode white-space predicate used by Rust `str::trim`
(`char::is_whitespace`, the Unicode White_Space property). -/
def isRustWS (c : Char) : Bool :=
  let n := c.toNat
  n == 0x09 || n == 0x0A || n == 0x0B || n == 0x0C || n == 0x0D || n == 0x20 ||
  n == 0x85 || n == 0xA0 || n == 0x1680 || (0x2000 ≤ n && n ≤ 0x200A) ||
  n == 0x2028 || n == 0x2029 || n == 0x202F || n == 0x205F || n == 0x3000

/-- Rust `str::trim`: drop the longest white-space prefix and suffix. -/
def rustTrim (s : List Char) : List Char :=
  ((s.dropWhile isRustWS).reverse.dropWhile isRustWS).reverse

/-- Case mapping of Rust `str::to_lowercase`, restricted to ASCII.
The two boilerplate markers searched for are pure ASCII, and non-ASCII
case mappings cannot produce an occurrence of either marker, so the
ASCII restriction is faithful for every use in this development. -/
def charLower (c : Char) : Char :=
  if 'A' ≤ c ∧ c ≤ 'Z' then Char.ofNat (c.toNat + 32) else c

/-- Rust `str::contains` with a string pattern: some contiguous substring
equals the pattern. -/
def containsSub : List Char → List Char → Bool
  | [], pat => pat.isEmpty
  | c :: cs, pat => pat.isPrefixOf (c :: cs) || containsSub cs pat

/-- Split at every newline character; always returns at least one chunk. -/
def splitOnNl : List Char → List (List Char)
  | [] => [[]]
  | c :: cs =>
    if c = '\n' then [] :: splitOnNl cs
    else
      match splitOnNl cs with
      | [] => [[c]]
      | l :: ls => (c :: l) :: ls

/-- Drop a final carriage return (the `\r` of a `\r\n` line ending). -/
def stripCR (l : List Char) : List Char :=
  if l.getLast? = some '\r' then l.dropLast else l

/-- Rust `str::lines`: split at `\n`, strip the `\r` of `\r\n` endings,
and do not produce a final empty line for a trailing newline. -/
def rustLines (s : List Char) : List (List Char) :=
  let parts := splitOnNl s
  (parts.dropLast.map stripCR) ++
    (match parts.getLast? with
     | some [] => []
     | some l => [l]
     | none => [])

/-- First boilerplate marker filtered out of model output. -/
def markerA : List Char := "diff to analyze".data

/-- Second boilerplate marker filtered out of model output. -/
def markerB : List Char := "input diff".data

/-- Line filter of both providers: keep a (trimmed) line iff it is non-empty
and its lowercase form contains neither boilerplate marker. -/
def keepLine (l : List Char) : Bool :=
  !l.isEmpty
    && !containsSub (l.map charLower) markerA
    && !containsSub (l.map charLower) markerB

/-- Response sanitization shared by both providers: trim the raw output,
split into lines, trim each line, drop empty and boilerplate lines, and
rejoin with newlines (`ollama.rs` and `gemini.rs`, `final_msg` pipeline). -/
def sanitize (raw : List Char) : List Char :=
  List.intercalate ['\n']
    (((rustLines (rustTrim raw)).map rustTrim).filter keepLine)

/-- Fuelled left-to-right non-overlapping replacement; `replaceList` below
instantiates the fuel so that it never runs out. -/
def replaceFuel (pat rep : List Char) : Nat → List Char → List Char
  | 0, s => s
  | fuel + 1, s =>
    match s with
    | [] => []
    | c :: cs =>
      if !pat.isEmpty && pat.isPrefixOf (c :: cs) then
        rep ++ replaceFuel pat rep fuel (List.drop (pat.length - 1) cs)
      else
        c :: replaceFuel pat rep fuel cs

/-- Rust `str::replace` for a non-empty pattern: replace every occurrence,
scanning left to right without overlap.  (Rust's empty-pattern behaviour is
irrelevant here: the only pattern used is the non-empty placeholder.) -/
def replaceList (pat rep s : List Char) : List Char :=
  replaceFuel pat rep s.length s

/-- The placeholder token substituted into the user prompt template. -/
def placeholder : List Char := "\x7b\x7bdiff\x7d\x7d".data

/-- Embedding of `generate_prompt` (`mod.rs`):
`prompt_template.replace("\x7b\x7bdiff\x7d\x7d", diff)`. -/
def generate_prompt (prompt_template diff : List Char) : List Char :=
  replaceList placeholder diff prompt_template

/-- Embedding of `serde_json::Value`. -/
inductive Json where
  | null
  | bool (b : Bool)
  | num (q : Rat)
  | str (s : List Char)
  | arr (elems : List Json)
  | obj (fields : List (List Char × Json))

/-- Object indexing `value[key]`: the field's value, or `Null` when the key
is absent or the value is not an object (serde_json's `Index<&str>`). -/
def Json.get (j : Json) (k : List Char) : Json :=
  match j with
  | .obj fs =>
    match fs.find? (fun f => f.1 == k) with
    | some f => f.2
    | none => .null
  | _ => .null

/-- Array indexing `value[i]`: the element, or `Null` when out of bounds or
the value is not an array (serde_json's `Index<usize>`). -/
def Json.idx (j : Json) (i : Nat) : Json :=
  match j with
  | .arr xs => (xs.get? i).getD .null
  | _ => .null

/-- Embedding of `Value::as_str`. -/
def Json.asStr (j : Json) : Option (List Char) :=
  match j with
  | .str s => some s
  | _ => none

/-- Embedding of `AIConfig` (`mod.rs`). -/
structure AIConfig where
  model : List Char
  temperature : Rat
  top_p : Rat
  num_predict : Int
  api_url : Option (List Char)
  api_key : Option (List Char)
  system_prompt : List Char
  user_prompt : List Char
deriving DecidableEq

/-- The `options` object sent to the self-hosted endpoint. -/
structure GenOptions where
  temperature : Rat
  num_predict : Int
  top_p : Rat
deriving DecidableEq

/-- Role of a chat message in the chat-shaped request. -/
inductive ChatRole where
  | system
  | user
deriving DecidableEq

/-- One element of the `messages` array of the chat-shaped request. -/
structure ChatMessage where
  role : ChatRole
  content : List Char
deriving DecidableEq

/-- The two request-body shapes built by `OllamaProvider::summarize`;
both also carry `stream: false`, kept here as the explicit `stream` field. -/
inductive OllamaBody where
  | generateShape (model : List Char) (prompt : List Char) (stream : Bool)
      (options : GenOptions)
  | chatShape (model : List Char) (messages : List ChatMessage) (stream : Bool)
      (options : GenOptions)
deriving DecidableEq

/-- Outcome of the single HTTP exchange of the self-hosted provider:
`sendFailure` is a transport error from `send()`; `ok status body` is a
response with the given status whose body parses to `body`
(`none` = body is not valid JSON). -/
inductive HttpOutcome where
  | sendFailure
  | ok (status : Nat) (body : Option Json)

/-- Errors of `OllamaProvider::summarize`. -/
inductive OllamaError where
  | transport
  | upstreamStatus (status : Nat)
  | malformedResponse
  | emptyGeneration
deriving DecidableEq

/-- Embedding of `reqwest::StatusCode::is_success`. -/
def statusIsSuccess (s : Nat) : Bool := 200 ≤ s && s < 300

/-- Default endpoint of the self-hosted provider (`ollama.rs`). -/
def ollamaDefaultUrl : List Char := "http://localhost:11434/api/chat".data

/-- URL used by the self-hosted provider: the configured one, or the default. -/
def ollamaUrl (cfg : AIConfig) : List Char :=
  cfg.api_url.getD ollamaDefaultUrl

/-- Endpoint-shape test of `ollama.rs`: `url.ends_with("/api/generate")`. -/
def isGenerateApi (url : List Char) : Bool :=
  List.isSuffixOf "/api/generate".data url

/-- Request body built by `OllamaProvider::summarize` for a given diff. -/
def ollamaPayload (cfg : AIConfig) (diff : List Char) : OllamaBody :=
  let prompt := generate_prompt cfg.user_prompt diff
  if isGenerateApi (ollamaUrl cfg) then
    .generateShape cfg.model
      (cfg.system_prompt ++ "\n\n".data ++ prompt) false
      ⟨cfg.temperature, cfg.num_predict, cfg.top_p⟩
  else
    .chatShape cfg.model
      [⟨.system, cfg.system_prompt⟩, ⟨.user, prompt⟩] false
      ⟨cfg.temperature, cfg.num_predict, cfg.top_p⟩

/-- Message extraction of `ollama.rs`:
`res_json["message"]["content"].as_str().or_else(|| res_json["response"].as_str()).unwrap_or("")`. -/
def ollamaExtract (j : Json) : List Char :=
  match ((j.get "message".data).get "content".data).asStr with
  | some s => s
  | none => ((j.get "response".data).asStr).getD []

/-- Handling of the single HTTP outcome in `OllamaProvider::summarize`:
non-2xx fails with the status; then parse, extract, sanitize, and reject an
empty result. -/
def ollamaHandle (resp : HttpOutcome) : Except OllamaError (List Char) :=
  match resp with
  | .sendFailure => .error .transport
  | .ok status body =>
    if statusIsSuccess status then
      match body with
      | none => .error .malformedResponse
      | some j =>
        let final_msg := sanitize (ollamaExtract j)
        if final_msg.isEmpty then .error .emptyGeneration else .ok final_msg
    else
      .error (.upstreamStatus status)

/-- Embedding of `OllamaProvider::summarize`: build the URL and payload,
perform one exchange through the transport oracle, and handle the outcome. -/
def ollamaSummarize (cfg : AIConfig) (diff : List Char)
    (net : List Char → OllamaBody → HttpOutcome) : Except OllamaError (List Char) :=
  ollamaHandle (net (ollamaUrl cfg) (ollamaPayload cfg diff))

/-- Errors of `GeminiProvider::summarize`. -/
inductive GeminiError where
  | missingApiKey
  | transport
  | upstream (status : Nat) (text : List Char)
  | malformedResponse
  | emptyGeneration
deriving DecidableEq

/-- Outcome of one HTTP exchange of the cloud provider: `sendFailure` is a
transport error from `send()`; `resp status text body` is a response whose
body reads as the text `text` (`none` = the read failed) and parses to the
JSON `body` (`none` = not valid JSON). -/
inductive GeminiOutcome where
  | sendFailure
  | resp (status : Nat) (text : Option (List Char)) (body : Option Json)

/-- Request body built by `GeminiProvider::summarize`: the system
instruction text, the rendered user prompt text, and the generation
parameters under the cloud API's field names. -/
structure GeminiBody where
  system_instruction : List Char
  contents : List Char
  temperature : Rat
  topP : Rat
  maxOutputTokens : Int
deriving DecidableEq

/-- The request body as a function of the configuration and the diff. -/
def geminiBody (cfg : AIConfig) (diff : List Char) : GeminiBody :=
  ⟨cfg.system_prompt, generate_prompt cfg.user_prompt diff,
   cfg.temperature, cfg.top_p, cfg.num_predict⟩

/-- Base URL fixed by `GeminiProvider::new`. -/
def geminiBaseUrl : List Char := "https://generativelanguage.googleapis.com".data

/-- Request URL of the cloud provider:
`format!("\x7b\x7d/v1beta/models/\x7b\x7d:generateContent?key=\x7b\x7d", base_url, model, api_key)`. -/
def geminiUrl (cfg : AIConfig) (api_key : List Char) : List Char :=
  geminiBaseUrl ++ "/v1beta/models/".data ++ cfg.model
    ++ ":generateContent?key=".data ++ api_key

/-- Result of the retry loop of `GeminiProvider::summarize`, before JSON
extraction. -/
inductive GeminiLoopResult where
  | transport
  | httpError (status : Nat) (text : List Char)
  | success (body : Option Json)

/-- Terminal classification of one response, as in the loop body after the
retry branch was not taken: non-2xx fails with the status and the body text
(`"Unknown error"` when the text read failed); 2xx succeeds. -/
def geminiClassify (o : GeminiOutcome) : List Nat × GeminiLoopResult :=
  match o with
  | .sendFailure => ([], .transport)
  | .resp status text body =>
    if statusIsSuccess status then ([], .success body)
    else ([], .httpError status (text.getD "Unknown error".data))

/-- The retry loop of `GeminiProvider::summarize`.  The source counts
`retries` up from 0 with guard `retries < max_retries`; here the same loop
is driven by `retriesLeft = max_retries - retries` so that the recursion is
structural.  The first component collects the backoff delays slept (in
seconds, `backoff` doubling after each retry); the second is the loop's
result.  Only a 429 status with retries remaining re-enters the loop. -/
def geminiLoop (net : Nat → GeminiOutcome) :
    Nat → Nat → Nat → List Nat × GeminiLoopResult
  | attempt, 0, _backoff => geminiClassify (net attempt)
  | attempt, retriesLeft + 1, backoff =>
    match net attempt with
    | .sendFailure => ([], .transport)
    | .resp status _text _body =>
      if status = 429 then
        let r := geminiLoop net (attempt + 1) retriesLeft (backoff * 2)
        (backoff :: r.1, r.2)
      else geminiClassify (net attempt)

/-- Gemini message extraction:
`res_json["candidates"][0]["content"]["parts"][0]["text"].as_str().unwrap_or("")`. -/
def geminiExtract (j : Json) : List Char :=
  (((((j.get "candidates".data).idx 0).get "content".data).get
      "parts".data).idx 0).get "text".data |>.asStr |>.getD []

/-- Embedding of `GeminiProvider::summarize`: the credential gate, the URL
and body construction, the retry loop (max 3 retries, initial backoff 2),
then extraction, sanitization, and the empty-result check. -/
def geminiSummarize (cfg : AIConfig) (diff : List Char)
    (net : List Char → GeminiBody → Nat → GeminiOutcome) :
    Except GeminiError (List Char) :=
  match cfg.api_key with
  | none => .error .missingApiKey
  | some api_key =>
    let url := geminiUrl cfg api_key
    let body := geminiBody cfg diff
    match (geminiLoop (net url body) 0 3 2).2 with
    | .transport => .error .transport
    | .httpError status text => .error (.upstream status text)
    | .success none => .error .malformedResponse
    | .success (some j) =>
      let final_msg := sanitize (geminiExtract j)
      if final_msg.isEmpty then .error .emptyGeneration else .ok final_msg

/-- Delays slept by one `summarize` call (empty when the credential gate
fails before the loop runs). -/
def geminiDelays (cfg : AIConfig) (diff : List Char)
    (net : List Char → GeminiBody → Nat → GeminiOutcome) : List Nat :=
  match cfg.api_key with
  | none => []
  | some api_key =>
    (geminiLoop (net (geminiUrl cfg api_key) (geminiBody cfg diff)) 0 3 2).1

/-- Embedding of `AsumConfig` (`config.rs`). -/
structure AsumConfig where
  active_provider : List Char
  max_diff_length : Nat
  git_extensions : List (List Char)
  system_prompt : List Char
  user_prompt : List Char
  ai_temperature : Rat
  ai_top_p : Rat
  ai_num_predict : Int
  ollama_url : Option (List Char)
  ollama_model : Option (List Char)
  gemini_api_key : Option (List Char)
  gemini_model : Option (List Char)
deriving DecidableEq

/-- The provider instance returned by the factory (the trait object of the
source becomes a sum over the two concrete providers, each owning its
`AIConfig`). -/
inductive Provider where
  | ollamaProvider (cfg : AIConfig)
  | geminiProvider (cfg : AIConfig)
deriving DecidableEq

/-- Embedding of `get_summarizer` (`mod.rs`): pick the model name by
provider, assemble the `AIConfig`, and construct the matching provider;
any other selector is the `"Unknown provider"` error. -/
def get_summarizer (config : AsumConfig) : Except (List Char) Provider :=
  let provider := config.active_provider
  let model :=
    if provider == "gemini".data then (config.gemini_model).getD []
    else if provider == "ollama".data then (config.ollama_model).getD []
    else []
  let ai_config : AIConfig :=
    ⟨model, config.ai_temperature, config.ai_top_p, config.ai_num_predict,
     config.ollama_url, config.gemini_api_key,
     config.system_prompt, config.user_prompt⟩
  if provider == "ollama".data then .ok (.ollamaProvider ai_config)
  else if provider == "gemini".data then .ok (.geminiProvider ai_config)
  else .error ("Unknown provider: ".data ++ provider)

/-- A list is a prefix of itself followed by anything. -/
theorem isPrefixOf_append_self (p b : List Char) : p.isPrefixOf (p ++ b) = true := by
  induction p with
  | nil => simp [List.isPrefixOf]
  | cons a as ih => simp [List.isPrefixOf, ih]

/-- The fuel of `replaceFuel` is irrelevant once it covers the input length. -/
theorem replaceFuel_eq (pat rep : List Char) :
    ∀ (f₁ f₂ : Nat) (s : List Char), s.length ≤ f₁ → s.length ≤ f₂ →
      replaceFuel pat rep f₁ s = replaceFuel pat rep f₂ s := by
  intro f₁
  induction f₁ with
  | zero =>
    intro f₂ s h1 _
    have hs : s = [] := List.eq_nil_of_length_eq_zero (Nat.le_zero.mp h1)
    subst hs
    cases f₂ <;> rfl
  | succ f ih =>
    intro f₂ s h1 h2
    cases s with
    | nil => cases f₂ <;> rfl
    | cons c cs =>
      cases f₂ with
      | zero => simp at h2
      | succ f₂' =>
        simp only [replaceFuel]
        split
        · have hd := List.length_drop (pat.length - 1) cs
          simp only [List.length_cons] at h1 h2
          rw [ih f₂' _ (by omega) (by omega)]
        · simp only [List.length_cons] at h1 h2
          rw [ih f₂' cs (by omega) (by omega)]

/-- A position where the pattern does not match passes through unchanged. -/
theorem replaceList_cons_of_not_isPrefixOf (pat rep : List Char) (c : Char)
    (cs : List Char) (h : pat.isPrefixOf (c :: cs) = false) :
    replaceList pat rep (c :: cs) = c :: replaceList pat rep cs := by
  simp only [replaceList, List.length_cons, replaceFuel, h, Bool.and_false, if_neg,
    Bool.false_eq_true, not_false_iff]

/-- A head position where the pattern matches is replaced, and scanning
resumes right after the matched occurrence. -/
theorem replaceList_cons_of_isPrefixOf (pat rep : List Char) (c : Char)
    (cs : List Char) (hp : pat ≠ []) (h : pat.isPrefixOf (c :: cs) = true) :
    replaceList pat rep (c :: cs)
      = rep ++ replaceList pat rep (List.drop (pat.length - 1) cs) := by
  simp only [replaceList, List.length_cons, replaceFuel]
  split
  · congr 1
    refine replaceFuel_eq pat rep _ _ _ ?_ le_rfl
    have := List.length_drop (pat.length - 1) cs
    omega
  · next hcond =>
    exfalso
    apply hcond
    have hie : pat.isEmpty = false := by
      cases pat with
      | nil => exact absurd rfl hp
      | cons a as => rfl
    simp [hie, h]

/-- An occurrence of the pattern at the head is replaced, and scanning
resumes right after it. -/
theorem replaceList_append_self (pat rep b : List Char) (hp : pat ≠ []) :
    replaceList pat rep (pat ++ b) = rep ++ replaceList pat rep b := by
  cases pat with
  | nil => exact absurd rfl hp
  | cons p ps =>
    rw [List.cons_append]
    rw [replaceList_cons_of_isPrefixOf (p :: ps) rep p (ps ++ b) hp
      (by rw [← List.cons_append]; exact isPrefixOf_append_self (p :: ps) b)]
    congr 2
    rw [List.length_cons, Nat.add_sub_cancel]
    exact List.drop_left ps b

/-- A template that does not contain the pattern passes through unchanged. -/
theorem replaceList_of_not_containsSub (pat rep : List Char) :
    ∀ t, containsSub t pat = false → replaceList pat rep t = t := by
  intro t
  induction t with
  | nil => intro _; rfl
  | cons c cs ih =>
    intro h
    simp only [containsSub, Bool.or_eq_false_iff] at h
    rw [replaceList_cons_of_not_isPrefixOf pat rep c cs h.1, ih h.2]

/-- C6: prompt rendering replaces every occurrence of the placeholder token
with the diff verbatim — a head occurrence is replaced by the diff and
scanning resumes after it, while a non-occurrence position passes through
unchanged — a template with no occurrence of the placeholder is returned
unchanged for every diff, and the template "Changes: " followed by the
placeholder renders with diff "fix bug" to "Changes: fix bug". -/
theorem generate_prompt_spec (t d b : List Char) (c : Char) (cs : List Char)
    (h1 : containsSub t placeholder = false)
    (h2 : placeholder.isPrefixOf (c :: cs) = false) :
    generate_prompt t d = t ∧
    generate_prompt (placeholder ++ b) d = d ++ generate_prompt b d ∧
    generate_prompt (c :: cs) d = c :: generate_prompt cs d ∧
    generate_prompt "Changes: \x7b\x7bdiff\x7d\x7d".data "fix bug".data
      = "Changes: fix bug".data :=
  ⟨replaceList_of_not_containsSub placeholder d t h1,
   replaceList_append_self placeholder d b (by decide),
   replaceList_cons_of_not_isPrefixOf placeholder d c cs h2,
   by decide⟩

/-- Witness for C6 at a concrete template without the placeholder. -/
theorem generate_prompt_spec_witness :
    generate_prompt "static prompt".data "fix bug".data = "static prompt".data :=
  (generate_prompt_spec "static prompt".data "fix bug".data [] 'x' []
    (by decide) (by decide)).1

/-- C9: the factory mapping from the selector string to a provider is total
and exhaustive over the set consisting of "ollama" and "gemini": those two
selectors yield the corresponding provider, and every other selector yields
the "Unknown provider" configuration error — never a fallback provider. -/
theorem get_summarizer_total (config : AsumConfig) :
    (config.active_provider = "ollama".data →
      ∃ ai, get_summarizer config = .ok (.ollamaProvider ai)) ∧
    (config.active_provider = "gemini".data →
      ∃ ai, get_summarizer config = .ok (.geminiProvider ai)) ∧
    (config.active_provider ≠ "ollama".data → config.active_provider ≠ "gemini".data →
      get_summarizer config
        = .error ("Unknown provider: ".data ++ config.active_provider)) := by
  refine ⟨fun h => ?_, fun h => ?_, fun h1 h2 => ?_⟩
  · refine ⟨⟨(config.ollama_model).getD [], config.ai_temperature, config.ai_top_p,
      config.ai_num_predict, config.ollama_url, config.gemini_api_key,
      config.system_prompt, config.user_prompt⟩, ?_⟩
    simp [get_summarizer, h]
  · refine ⟨⟨(config.gemini_model).getD [], config.ai_temperature, config.ai_top_p,
      config.ai_num_predict, config.ollama_url, config.gemini_api_key,
      config.system_prompt, config.user_prompt⟩, ?_⟩
    simp [get_summarizer, h]
  · have h1' : (config.active_provider == "ollama".data) = false :=
      beq_eq_false_iff_ne.mpr h1
    have h2' : (config.active_provider == "gemini".data) = false :=
      beq_eq_false_iff_ne.mpr h2
    simp [get_summarizer, h1', h2']

/-- Witness for C9 at the selector "other". -/
theorem get_summarizer_total_witness :
    get_summarizer
        ⟨"other".data, 0, [], "s".data, "u".data, 0, 0, 0, none, none, none, none⟩
      = .error ("Unknown provider: other".data) :=
  (get_summarizer_total
      ⟨"other".data, 0, [], "s".data, "u".data, 0, 0, 0, none, none, none, none⟩).2.2
    (by decide) (by decide)

/-- C3: with no API key configured, the cloud provider's summarize is the
distinct missing-credential error, and the result does not depend on the
transport oracle at all — no network request is issued. -/
theorem gemini_missing_key (cfg : AIConfig) (diff : List Char)
    (net : List Char → GeminiBody → Nat → GeminiOutcome)
    (h : cfg.api_key = none) :
    geminiSummarize cfg diff net = .error .missingApiKey ∧
    (∀ net', geminiSummarize cfg diff net = geminiSummarize cfg diff net') := by
  constructor
  · simp [geminiSummarize, h]
  · intro net'
    simp [geminiSummarize, h]

/-- Witness for C3 at a concrete keyless configuration. -/
theorem gemini_missing_key_witness :
    geminiSummarize ⟨"m".data, 0, 0, 0, none, none, "s".data, "u".data⟩ "d".data
        (fun _ _ _ => .sendFailure)
      = .error .missingApiKey :=
  (gemini_missing_key ⟨"m".data, 0, 0, 0, none, none, "s".data, "u".data⟩ "d".data
    (fun _ _ _ => .sendFailure) rfl).1

/-- C8: the self-hosted provider never retries — its outcome is a function
of the single exchange it performs, and a non-2xx status on that exchange
is an immediate failure carrying the status code. -/
theorem ollama_no_retry (cfg : AIConfig) (diff : List Char)
    (net net' : List Char → OllamaBody → HttpOutcome)
    (status : Nat) (body : Option Json)
    (h : net (ollamaUrl cfg) (ollamaPayload cfg diff) = .ok status body)
    (hs : statusIsSuccess status = false)
    (h' : net' (ollamaUrl cfg) (ollamaPayload cfg diff)
        = net (ollamaUrl cfg) (ollamaPayload cfg diff)) :
    ollamaSummarize cfg diff net = .error (.upstreamStatus status) ∧
    ollamaSummarize cfg diff net' = ollamaSummarize cfg diff net := by
  constructor
  · simp [ollamaSummarize, h, ollamaHandle, hs]
  · simp [ollamaSummarize, h']

/-- Witness for C8 at a concrete HTTP 500 response. -/
theorem ollama_no_retry_witness :
    ollamaSummarize ⟨"m".data, 0, 0, 0, none, none, "s".data, "u".data⟩ "d".data
        (fun _ _ => .ok 500 none)
      = .error (.upstreamStatus 500) :=
  (ollama_no_retry ⟨"m".data, 0, 0, 0, none, none, "s".data, "u".data⟩ "d".data
    (fun _ _ => .ok 500 none) (fun _ _ => .ok 500 none) 500 none rfl (by decide) rfl).1

/-- C10: the cloud provider's credential gate rejects only an absent key.
With the empty string as key, summarize never fails with the
missing-credential error, the request URL ends in an empty key query
parameter, and the network call is issued with exactly that URL and the
built body — its response determines the outcome. -/
theorem gemini_empty_key_gate (cfg : AIConfig) (diff t : List Char)
    (h : cfg.api_key = some []) :
    (∀ net, geminiSummarize cfg diff net ≠ .error .missingApiKey) ∧
    geminiUrl cfg [] = geminiBaseUrl ++ "/v1beta/models/".data ++ cfg.model
      ++ ":generateContent?key=".data ∧
    (∀ body, geminiSummarize cfg diff
        (fun u b _ =>
          if u = geminiUrl cfg [] ∧ b = geminiBody cfg diff
          then .resp 500 (some t) body else .sendFailure)
      = .error (.upstream 500 t)) := by
  refine ⟨fun net => ?_, ?_, fun body => ?_⟩
  · simp only [geminiSummarize, h]
    split
    · simp
    · simp
    · simp
    · split <;> simp
  · simp [geminiUrl]
  · simp only [geminiSummarize, h, geminiLoop, geminiClassify]
    norm_num [statusIsSuccess]

/-- Witness for C10 at a concrete empty-key configuration. -/
theorem gemini_empty_key_gate_witness :
    geminiSummarize ⟨"m".data, 0, 0, 0, none, some [], "s".data, "u".data⟩ "d".data
        (fun u b _ =>
          if u = geminiUrl ⟨"m".data, 0, 0, 0, none, some [], "s".data, "u".data⟩ []
              ∧ b = geminiBody ⟨"m".data, 0, 0, 0, none, some [], "s".data, "u".data⟩ "d".data
          then .resp 500 (some "err".data) none else .sendFailure)
      = .error (.upstream 500 "err".data) :=
  (gemini_empty_key_gate ⟨"m".data, 0, 0, 0, none, some [], "s".data, "u".data⟩
    "d".data "err".data rfl).2.2 none

/-- The sequence of backoff delays available from an initial delay: each
entry doubles the previous one. -/
def backoffSeq (b : Nat) : Nat → List Nat
  | 0 => []
  | n + 1 => b :: backoffSeq (b * 2) n

/-- The first component of `geminiClassify` is always empty: a terminal
response sleeps no further delay. -/
theorem geminiClassify_fst (o : GeminiOutcome) : (geminiClassify o).1 = [] := by
  cases o with
  | sendFailure => rfl
  | resp status text body =>
    simp only [geminiClassify]
    split <;> rfl

/-- The delays slept by the retry loop form a prefix of the doubling
backoff sequence, with at most as many entries as retries remain. -/
theorem geminiLoop_delays (net : Nat → GeminiOutcome) :
    ∀ (left a b : Nat), ∃ n, n ≤ left ∧
      (geminiLoop net a left b).1 = (backoffSeq b left).take n := by
  intro left
  induction left with
  | zero =>
    intro a b
    exact ⟨0, le_rfl, by simp [geminiLoop, geminiClassify_fst]⟩
  | succ l ih =>
    intro a b
    cases ho : net a with
    | sendFailure => exact ⟨0, Nat.zero_le _, by simp [geminiLoop, ho]⟩
    | resp status text body =>
      by_cases h429 : status = 429
      · obtain ⟨n, hn, he⟩ := ih (a + 1) (b * 2)
        refine ⟨n + 1, by omega, ?_⟩
        simp [geminiLoop, ho, h429, backoffSeq, he]
      · exact ⟨0, Nat.zero_le _,
          by simp [geminiLoop, ho, h429, geminiClassify_fst]⟩

/-- From any loop state, a response that is neither 429 nor 2xx ends the
loop at once with the status and body text and no further delay. -/
theorem geminiLoop_non429 (net : Nat → GeminiOutcome) (a left b status : Nat)
    (text : Option (List Char)) (body : Option Json)
    (hnet : net a = .resp status text body)
    (h429 : status ≠ 429) (hs : statusIsSuccess status = false) :
    geminiLoop net a left b
      = ([], .httpError status (text.getD "Unknown error".data)) := by
  cases left with
  | zero => simp [geminiLoop, hnet, geminiClassify, hs]
  | succ l => simp [geminiLoop, hnet, h429, geminiClassify, hs]

/-- A transport that answers 429 on every attempt exhausts all three
retries — sleeping 2, 4 and 8 seconds — and then fails with 429. -/
theorem geminiLoop_exhausted (net : Nat → GeminiOutcome)
    (text : Option (List Char)) (body : Option Json)
    (hnet : ∀ i, net i = .resp 429 text body) :
    geminiLoop net 0 3 2
      = ([2, 4, 8], .httpError 429 (text.getD "Unknown error".data)) := by
  have h0 := hnet 0
  have h1 := hnet 1
  have h2 := hnet 2
  have h3 := hnet 3
  simp [geminiLoop, h0, h1, h2, h3, geminiClassify, statusIsSuccess]

/-- C2: with an API key configured, the cloud provider retries at most 3
times, the delays slept form a prefix of 2s, 4s, 8s (doubling backoff);
a response that is neither 429 nor 2xx ends the loop at once — from any
loop state — with the status code and body text in the error; and a
transport answering 429 on every attempt exhausts the retries, sleeps
exactly 2s, 4s, 8s, and fails with the 429 status and body text. -/
theorem gemini_retry_policy (cfg : AIConfig) (key diff : List Char)
    (net : List Char → GeminiBody → Nat → GeminiOutcome)
    (text429 : Option (List Char)) (body429 : Option Json)
    (hkey : cfg.api_key = some key) :
    (∃ n, n ≤ 3 ∧ geminiDelays cfg diff net = List.take n [2, 4, 8]) ∧
    (∀ a left b status text body, status ≠ 429 → statusIsSuccess status = false →
      net (geminiUrl cfg key) (geminiBody cfg diff) a = .resp status (some text) body →
      geminiLoop (net (geminiUrl cfg key) (geminiBody cfg diff)) a left b
        = ([], .httpError status text)) ∧
    ((∀ i, net (geminiUrl cfg key) (geminiBody cfg diff) i
        = .resp 429 text429 body429) →
      geminiSummarize cfg diff net
          = .error (.upstream 429 (text429.getD "Unknown error".data)) ∧
      geminiDelays cfg diff net = [2, 4, 8]) := by
  refine ⟨?_, ?_, fun hnet => ?_⟩
  · obtain ⟨n, hn, he⟩ :=
      geminiLoop_delays (net (geminiUrl cfg key) (geminiBody cfg diff)) 3 0 2
    exact ⟨n, hn, by simp only [geminiDelays, hkey]; exact he⟩
  · intro a left b status text body h429 hs hnet
    exact geminiLoop_non429 _ a left b status (some text) body hnet h429 hs
  · have hloop := geminiLoop_exhausted _ text429 body429 hnet
    constructor
    · simp only [geminiSummarize, hkey, hloop]
    · simp only [geminiDelays, hkey, hloop]

/-- Witness for C2 at a concrete configuration and an always-429 transport. -/
theorem gemini_retry_policy_witness :
    geminiSummarize ⟨"m".data, 0, 0, 0, none, some "k".data, "s".data, "u".data⟩
        "d".data (fun _ _ _ => .resp 429 (some "slow".data) none)
      = .error (.upstream 429 "slow".data) ∧
    geminiDelays ⟨"m".data, 0, 0, 0, none, some "k".data, "s".data, "u".data⟩
        "d".data (fun _ _ _ => .resp 429 (some "slow".data) none)
      = [2, 4, 8] :=
  (gemini_retry_policy ⟨"m".data, 0, 0, 0, none, some "k".data, "s".data, "u".data⟩
    "k".data "d".data (fun _ _ _ => .resp 429 (some "slow".data) none)
    (some "slow".data) none rfl).2.2 (fun _ => rfl)

/-- Configuration exhibiting the C1 counterexample: a generate-style URL. -/
def c1cfg : AIConfig :=
  ⟨"m".data, 0, 0, 0, some "http://localhost:11434/api/generate".data, none,
   "sys".data, "\x7b\x7bdiff\x7d\x7d".data⟩

/-- Response body exhibiting the C1 counterexample: it carries both a
message-content field and a top-level response field. -/
def c1json : Json :=
  .obj [("message".data, .obj [("content".data, .str "A".data)]),
        ("response".data, .str "B".data)]

/-- C1 counterexample: under a generate-style URL the code still prefers
the message-content field — the response field holds "B", yet summarize
returns "A" taken from message.content, so the message is not extracted
from the top-level response field as the claim states. -/
theorem ollama_generate_extraction_counterexample :
    isGenerateApi (ollamaUrl c1cfg) = true ∧
    (c1json.get "response".data).asStr = some "B".data ∧
    sanitize "B".data = "B".data ∧
    ollamaSummarize c1cfg "d".data (fun _ _ => .ok 200 (some c1json)) = .ok "A".data ∧
    "A".data ≠ "B".data :=
  ⟨by decide, by decide, by decide, by rfl, by decide⟩

/-- C1 (amended): a URL ending in the generate-style suffix selects the
flattened-prompt request shape (system prompt, blank line, rendered user
prompt) and any other URL — including the default used when no URL is
configured — selects the chat message-list shape; extraction is the same
in both cases: the message-content field when present, otherwise the
top-level response field (so typical generate replies, which lack
message.content, are read from the response field). -/
theorem ollama_shape_selection (cfg : AIConfig) (diff s : List Char) (j : Json) :
    (isGenerateApi (ollamaUrl cfg) = true →
      ollamaPayload cfg diff = .generateShape cfg.model
        (cfg.system_prompt ++ "\n\n".data ++ generate_prompt cfg.user_prompt diff)
        false ⟨cfg.temperature, cfg.num_predict, cfg.top_p⟩) ∧
    (isGenerateApi (ollamaUrl cfg) = false →
      ollamaPayload cfg diff = .chatShape cfg.model
        [⟨.system, cfg.system_prompt⟩, ⟨.user, generate_prompt cfg.user_prompt diff⟩]
        false ⟨cfg.temperature, cfg.num_predict, cfg.top_p⟩) ∧
    (cfg.api_url = none → isGenerateApi (ollamaUrl cfg) = false) ∧
    (((j.get "message".data).get "content".data).asStr = some s →
      ollamaExtract j = s) ∧
    (((j.get "message".data).get "content".data).asStr = none →
      ollamaExtract j = ((j.get "response".data).asStr).getD []) := by
  refine ⟨fun h => ?_, fun h => ?_, fun h => ?_, fun h => ?_, fun h => ?_⟩
  · simp [ollamaPayload, h]
  · simp [ollamaPayload, h]
  · rw [ollamaUrl, h]
    decide
  · simp [ollamaExtract, h]
  · simp [ollamaExtract, h]

/-- Witness for C1 (amended) at the counterexample configuration. -/
theorem ollama_shape_selection_witness :
    ollamaPayload c1cfg "d".data = .generateShape "m".data
      ("sys".data ++ "\n\n".data ++ generate_prompt "\x7b\x7bdiff\x7d\x7d".data "d".data)
      false ⟨0, 0, 0⟩ :=
  (ollama_shape_selection c1cfg "d".data [] Json.null).1 (by decide)

/-- A successful result of the self-hosted response handler is non-empty:
the empty sanitized message is diverted to the empty-generation error. -/
theorem ollamaHandle_ok_ne_nil (r : HttpOutcome) (msg : List Char)
    (h : ollamaHandle r = .ok msg) : msg ≠ [] := by
  cases r with
  | sendFailure => simp [ollamaHandle] at h
  | ok status body =>
    by_cases hs : statusIsSuccess status
    · cases body with
      | none => simp [ollamaHandle, hs] at h
      | some j =>
        simp only [ollamaHandle, hs, if_true] at h
        split at h
        · simp at h
        · next hne =>
          simp only [Except.ok.injEq] at h
          subst h
          rw [List.isEmpty_iff] at hne
          exact hne
    · simp [ollamaHandle, hs] at h

/-- A successful result of the cloud provider is non-empty: the empty
sanitized message is diverted to the empty-generation error. -/
theorem geminiSummarize_ok_ne_nil (cfg : AIConfig) (diff msg : List Char)
    (net : List Char → GeminiBody → Nat → GeminiOutcome)
    (h : geminiSummarize cfg diff net = .ok msg) : msg ≠ [] := by
  rcases hk : cfg.api_key with _ | key
  · simp [geminiSummarize, hk] at h
  · simp only [geminiSummarize, hk] at h
    split at h
    · simp at h
    · simp at h
    · simp at h
    · split at h
      · simp at h
      · next hne =>
        simp only [Except.ok.injEq] at h
        subst h
        rw [List.isEmpty_iff] at hne
        exact hne

/-- C5: a raw response whose sanitized form is empty — including an input
of only blank lines and boilerplate-marker lines, and a parsed response in
which the expected text field is absent, whose extraction defaults to the
empty string — makes summarize fail with the distinct empty-generation
error in both providers, and consequently every successful summarize
result of either provider is a non-empty string. -/
theorem empty_generation_is_error
    (cfg cfg' : AIConfig) (diff diff' key msg msg' : List Char)
    (onet : List Char → OllamaBody → HttpOutcome)
    (gnet : List Char → GeminiBody → Nat → GeminiOutcome)
    (j j' : Json) (status : Nat)
    (hkey : cfg'.api_key = some key) :
    (onet (ollamaUrl cfg) (ollamaPayload cfg diff) = .ok status (some j) →
      statusIsSuccess status = true → sanitize (ollamaExtract j) = [] →
      ollamaSummarize cfg diff onet = .error .emptyGeneration) ∧
    (ollamaSummarize cfg diff onet = .ok msg → msg ≠ []) ∧
    ((geminiLoop (gnet (geminiUrl cfg' key) (geminiBody cfg' diff')) 0 3 2).2
        = .success (some j') → sanitize (geminiExtract j') = [] →
      geminiSummarize cfg' diff' gnet = .error .emptyGeneration) ∧
    (geminiSummarize cfg' diff' gnet = .ok msg' → msg' ≠ []) ∧
    sanitize "\n  \nInput diff to analyze:\n   input DIFF below\n\n".data = [] ∧
    ollamaExtract (.obj []) = [] ∧
    geminiExtract (.obj []) = [] := by
  refine ⟨fun h1 h2 h3 => ?_, fun h => ollamaHandle_ok_ne_nil _ _ h,
    fun h1 h2 => ?_, fun h => geminiSummarize_ok_ne_nil cfg' diff' msg' gnet h,
    by decide, by decide, by decide⟩
  · simp [ollamaSummarize, h1, ollamaHandle, h2, h3]
  · simp only [geminiSummarize, hkey, h1]
    simp [h2]

/-- Configuration of the C5 witness (self-hosted provider, default URL). -/
def c5cfg : AIConfig := ⟨"m".data, 0, 0, 0, none, none, "s".data, "u".data⟩

/-- Response of the C5 witness: message content of white space only. -/
def c5json : Json :=
  .obj [("message".data, .obj [("content".data, .str "  ".data)])]

/-- Witness for C5: an all-whitespace generation is the empty-generation
error. -/
theorem empty_generation_is_error_witness :
    ollamaSummarize c5cfg "d".data (fun _ _ => .ok 200 (some c5json))
      = .error .emptyGeneration :=
  (empty_generation_is_error c5cfg
    ⟨"m".data, 0, 0, 0, none, some "k".data, "s".data, "u".data⟩
    "d".data "d".data "k".data [] []
    (fun _ _ => .ok 200 (some c5json)) (fun _ _ _ => .sendFailure)
    c5json Json.null 200 rfl).1 rfl rfl (by decide)

/-- C4 counterexample: the literal "..." line of the spec's concrete
scenario is non-empty and contains neither boilerplate marker, so the
sanitizer keeps it — the raw output sanitizes to
"feat: add x\n...\nfix: cleanup", not to "feat: add x\nfix: cleanup". -/
theorem sanitize_example_counterexample :
    sanitize "feat: add x\n\nInput diff to analyze:\n...\nfix: cleanup".data
      = "feat: add x\n...\nfix: cleanup".data ∧
    "feat: add x\n...\nfix: cleanup".data ≠ "feat: add x\nfix: cleanup".data :=
  ⟨by decide, by decide⟩

/-- C4 (amended): both providers sanitize the raw model output with the
same function — every successful result of either provider is `sanitize`
(trim the whole string, trim each line, drop lines that are empty or whose
lowercase form contains "diff to analyze" or "input diff", rejoin with
newlines) applied to that provider's extracted text — and the spec's
concrete raw output sanitizes to "feat: add x\n...\nfix: cleanup", the
"..." line surviving because it contains no marker. -/
theorem sanitize_shared_pipeline
    (cfg cfg' : AIConfig) (diff diff' key msg msg' : List Char)
    (onet : List Char → OllamaBody → HttpOutcome)
    (gnet : List Char → GeminiBody → Nat → GeminiOutcome)
    (j j' : Json) (status : Nat)
    (h1 : onet (ollamaUrl cfg) (ollamaPayload cfg diff) = .ok status (some j))
    (h2 : ollamaSummarize cfg diff onet = .ok msg)
    (h3 : cfg'.api_key = some key)
    (h4 : (geminiLoop (gnet (geminiUrl cfg' key) (geminiBody cfg' diff')) 0 3 2).2
        = .success (some j'))
    (h5 : geminiSummarize cfg' diff' gnet = .ok msg') :
    msg = sanitize (ollamaExtract j) ∧
    msg' = sanitize (geminiExtract j') ∧
    sanitize "feat: add x\n\nInput diff to analyze:\n...\nfix: cleanup".data
      = "feat: add x\n...\nfix: cleanup".data := by
  refine ⟨?_, ?_, by decide⟩
  · rw [ollamaSummarize, h1] at h2
    by_cases hs : statusIsSuccess status
    · simp only [ollamaHandle, hs, if_true] at h2
      split at h2
      · simp at h2
      · simp only [Except.ok.injEq] at h2
        exact h2.symm
    · simp [ollamaHandle, hs] at h2
  · simp only [geminiSummarize, h3, h4] at h5
    split at h5
    · simp at h5
    · simp only [Except.ok.injEq] at h5
      exact h5.symm

/-- Ollama-side configuration of the C4 witness. -/
def c4ocfg : AIConfig := ⟨"m".data, 0, 0, 0, none, none, "s".data, "u".data⟩

/-- Gemini-side configuration of the C4 witness. -/
def c4gcfg : AIConfig := ⟨"m".data, 0, 0, 0, none, some "k".data, "s".data, "u".data⟩

/-- Chat-shaped response of the C4 witness. -/
def c4ojson : Json :=
  .obj [("message".data, .obj [("content".data, .str "ok: fine".data)])]

/-- Cloud response of the C4 witness. -/
def c4gjson : Json :=
  .obj [("candidates".data, .arr [.obj [("content".data,
    .obj [("parts".data, .arr [.obj [("text".data, .str "good: yes".data)]])])]])]

/-- Witness for C4 (amended) at concrete successful runs of both providers. -/
theorem sanitize_shared_pipeline_witness :
    "ok: fine".data = sanitize (ollamaExtract c4ojson) ∧
    "good: yes".data = sanitize (geminiExtract c4gjson) ∧
    sanitize "feat: add x\n\nInput diff to analyze:\n...\nfix: cleanup".data
      = "feat: add x\n...\nfix: cleanup".data :=
  sanitize_shared_pipeline c4ocfg c4gcfg "d".data "d".data "k".data
    "ok: fine".data "good: yes".data
    (fun _ _ => .ok 200 (some c4ojson)) (fun _ _ _ => .resp 200 none (some c4gjson))
    c4ojson c4gjson 200 rfl rfl rfl rfl rfl

/-- The head of a dropWhile result falsifies the predicate. -/
theorem dropWhile_head?_false (p : Char → Bool) (l : List Char) (c : Char)
    (h : (l.dropWhile p).head? = some c) : p c = false := by
  have hne : l.dropWhile p ≠ [] := by
    intro hn
    rw [hn] at h
    simp at h
  rw [List.head?_eq_head hne] at h
  rw [← Option.some_inj.mp h]
  exact List.head_dropWhile_not p l hne

/-- A trimmed string extends by a white-space suffix to the result of
dropping the white-space prefix. -/
theorem rustTrim_append (s : List Char) :
    rustTrim s ++ ((s.dropWhile isRustWS).reverse.takeWhile isRustWS).reverse
      = s.dropWhile isRustWS := by
  rw [rustTrim, ← List.reverse_append, List.takeWhile_append_dropWhile,
    List.reverse_reverse]

/-- The first character of a trimmed string is not white space. -/
theorem rustTrim_head? (s : List Char) (c : Char)
    (h : (rustTrim s).head? = some c) : isRustWS c = false := by
  have hne : rustTrim s ≠ [] := by
    intro hn
    rw [hn] at h
    simp at h
  have hds : (s.dropWhile isRustWS).head? = some c := by
    rw [← rustTrim_append s, List.head?_append_of_ne_nil _ hne, h]
  exact dropWhile_head?_false _ _ _ hds

/-- The last character of a trimmed string is not white space. -/
theorem rustTrim_getLast? (s : List Char) (c : Char)
    (h : (rustTrim s).getLast? = some c) : isRustWS c = false := by
  rw [rustTrim, List.getLast?_reverse] at h
  exact dropWhile_head?_false _ _ _ h

/-- A string whose end characters are not white space is already trimmed. -/
theorem rustTrim_eq_self (s : List Char)
    (h1 : ∀ c, s.head? = some c → isRustWS c = false)
    (h2 : ∀ c, s.getLast? = some c → isRustWS c = false) :
    rustTrim s = s := by
  have hdl : s.dropWhile isRustWS = s := by
    cases s with
    | nil => rfl
    | cons a l => simp [List.dropWhile_cons, h1 a rfl]
  rw [rustTrim, hdl]
  have hrl : s.reverse.dropWhile isRustWS = s.reverse := by
    cases hr : s.reverse with
    | nil => rfl
    | cons b r =>
      have hb : s.getLast? = some b := by
        rw [← List.head?_reverse, hr]
        rfl
      simp [List.dropWhile_cons, h2 b hb]
  rw [hrl, List.reverse_reverse]

/-- Trimming is idempotent. -/
theorem rustTrim_idem (s : List Char) : rustTrim (rustTrim s) = rustTrim s :=
  rustTrim_eq_self _ (fun c h => rustTrim_head? s c h)
    (fun c h => rustTrim_getLast? s c h)

/-- Characters of a trimmed string come from the original string. -/
theorem rustTrim_mem (s : List Char) (c : Char) (h : c ∈ rustTrim s) : c ∈ s := by
  rw [rustTrim, List.mem_reverse] at h
  have h1 := (List.dropWhile_sublist isRustWS).subset h
  rw [List.mem_reverse] at h1
  exact (List.dropWhile_sublist isRustWS).subset h1

/-- Splitting at newlines always yields at least one chunk. -/
theorem splitOnNl_ne_nil (s : List Char) : splitOnNl s ≠ [] := by
  cases s with
  | nil => simp [splitOnNl]
  | cons c cs =>
    simp only [splitOnNl]
    split
    · simp
    · split <;> simp

/-- No chunk produced by splitting at newlines contains a newline. -/
theorem mem_splitOnNl_no_nl (s : List Char) :
    ∀ l ∈ splitOnNl s, '\n' ∉ l := by
  induction s with
  | nil =>
    intro l hl
    simp only [splitOnNl, List.mem_singleton] at hl
    subst hl
    simp
  | cons c cs ih =>
    intro l hl
    simp only [splitOnNl] at hl
    by_cases hc : c = '\n'
    · rw [if_pos hc] at hl
      rcases List.mem_cons.mp hl with h | h
      · subst h
        simp
      · exact ih l h
    · rw [if_neg hc] at hl
      rcases hsp : splitOnNl cs with _ | ⟨x, xs⟩
      · exact absurd hsp (splitOnNl_ne_nil cs)
      · rw [hsp] at hl
        rcases List.mem_cons.mp hl with h | h
        · subst h
          intro hmem
          rcases List.mem_cons.mp hmem with h' | h'
          · exact hc h'.symm
          · exact ih x (by rw [hsp]; exact List.mem_cons_self x xs) h'
        · exact ih l (by rw [hsp]; exact List.mem_cons_of_mem x h)

/-- Prepending a newline-free chunk extends the first split chunk. -/
theorem splitOnNl_append (x : List Char) (hx : '\n' ∉ x) :
    ∀ (rest h : List Char) (t : List (List Char)),
      splitOnNl rest = h :: t → splitOnNl (x ++ rest) = (x ++ h) :: t := by
  induction x with
  | nil =>
    intro rest h t hsp
    simpa using hsp
  | cons c cs ih =>
    intro rest h t hsp
    have hc : ¬ c = '\n' := fun hh => hx (by simp [hh])
    have hcs : '\n' ∉ cs := fun hh => hx (List.mem_cons_of_mem _ hh)
    have hih : splitOnNl (cs ++ rest) = (cs ++ h) :: t := ih hcs rest h t hsp
    show splitOnNl (c :: (cs ++ rest)) = (c :: (cs ++ h)) :: t
    simp only [splitOnNl, if_neg hc]
    rw [hih]

/-- Splitting the newline-join of non-empty many newline-free chunks
recovers the chunks. -/
theorem splitOnNl_intercalate :
    ∀ (L : List (List Char)), L ≠ [] → (∀ l ∈ L, '\n' ∉ l) →
      splitOnNl (List.intercalate ['\n'] L) = L := by
  intro L
  induction L with
  | nil => intro h _; exact absurd rfl h
  | cons x xs ih =>
    intro _ hnl
    cases xs with
    | nil =>
      have h1 : List.intercalate ['\n'] [x] = x := by simp [List.intercalate]
      rw [h1]
      have h2 := splitOnNl_append x (hnl x (by simp)) [] [] [] rfl
      simpa using h2
    | cons y ys =>
      have hx : '\n' ∉ x := hnl x (by simp)
      have hcut : List.intercalate ['\n'] (x :: y :: ys)
          = x ++ ('\n' :: List.intercalate ['\n'] (y :: ys)) := by
        simp [List.intercalate, List.intersperse_cons₂]
      rw [hcut]
      have hrec : splitOnNl (List.intercalate ['\n'] (y :: ys)) = y :: ys :=
        ih (by simp) (fun l hl => hnl l (List.mem_cons_of_mem x hl))
      have hnlstep : splitOnNl ('\n' :: List.intercalate ['\n'] (y :: ys))
          = [] :: y :: ys := by
        simp [splitOnNl, hrec]
      have := splitOnNl_append x hx _ [] (y :: ys) hnlstep
      simpa using this

/-- Unfolding of intercalate on two or more chunks. -/
theorem intercalate_cons₂ (sep x y : List Char) (ys : List (List Char)) :
    List.intercalate sep (x :: y :: ys)
      = x ++ sep ++ List.intercalate sep (y :: ys) := by
  simp [List.intercalate, List.intersperse_cons₂]

/-- The head of a newline join is the head of its non-empty first chunk. -/
theorem head?_intercalate (x : List Char) (xs : List (List Char)) (hx : x ≠ []) :
    (List.intercalate ['\n'] (x :: xs)).head? = x.head? := by
  cases xs with
  | nil => simp [List.intercalate]
  | cons y ys =>
    rw [intercalate_cons₂, List.append_assoc]
    exact List.head?_append_of_ne_nil x hx

/-- The last element of a newline join is the last of its non-empty last
chunk. -/
theorem getLast?_intercalate :
    ∀ (L : List (List Char)) (z : List Char), L.getLast? = some z → z ≠ [] →
      (List.intercalate ['\n'] L).getLast? = z.getLast? := by
  intro L
  induction L with
  | nil =>
    intro z hz _
    simp at hz
  | cons x xs ih =>
    intro z hz hzne
    cases xs with
    | nil =>
      have hzx : x = z := by simpa using hz
      subst hzx
      simp [List.intercalate]
    | cons y ys =>
      have hz' : (y :: ys).getLast? = some z := by
        rwa [List.getLast?_cons_cons] at hz
      obtain ⟨w, hw⟩ : ∃ w, z.getLast? = some w := by
        cases z with
        | nil => exact absurd rfl hzne
        | cons a as => exact ⟨_, List.getLast?_eq_getLast (a :: as) (by simp)⟩
      rw [intercalate_cons₂, List.append_assoc, List.getLast?_append,
        List.getLast?_append, ih z hz' hzne, hw]
      rfl

/-- Membership of the last element. -/
theorem mem_of_getLast?_eq (L : List (List Char)) (z : List Char)
    (h : L.getLast? = some z) : z ∈ L := by
  cases L with
  | nil => simp at h
  | cons a as =>
    rw [List.getLast?_eq_getLast (a :: as) (by simp)] at h
    rw [← Option.some_inj.mp h]
    exact List.getLast_mem _

/-- stripCR is the identity on a chunk not ending in a carriage return. -/
theorem stripCR_eq_self (l : List Char) (h : l.getLast? ≠ some '\r') :
    stripCR l = l := by
  rw [stripCR, if_neg h]

/-- The lines of a newline join of non-empty, newline-free chunks that do
not end in a carriage return are exactly the chunks. -/
theorem rustLines_intercalate (L : List (List Char)) (hL : L ≠ [])
    (hnl : ∀ l ∈ L, '\n' ∉ l) (hne : ∀ l ∈ L, l ≠ [])
    (hcr : ∀ l ∈ L, l.getLast? ≠ some '\r') :
    rustLines (List.intercalate ['\n'] L) = L := by
  simp only [rustLines]
  rw [splitOnNl_intercalate L hL hnl]
  obtain ⟨z, hz⟩ : ∃ z, L.getLast? = some z := by
    cases L with
    | nil => exact absurd rfl hL
    | cons a as => exact ⟨_, List.getLast?_eq_getLast (a :: as) (by simp)⟩
  have hzmem : z ∈ L := mem_of_getLast?_eq L z hz
  have hzne : z ≠ [] := hne z hzmem
  rw [hz]
  cases z with
  | nil => exact absurd rfl hzne
  | cons a as =>
    show L.dropLast.map stripCR ++ [a :: as] = L
    have hmap : L.dropLast.map stripCR = L.dropLast := by
      have hid : ∀ x ∈ L.dropLast, stripCR x = x := fun x hx =>
        stripCR_eq_self x (hcr x (List.mem_of_mem_dropLast hx))
      calc L.dropLast.map stripCR = L.dropLast.map id := List.map_congr_left hid
        _ = L.dropLast := List.map_id _
    rw [hmap]
    have hgl : L.getLast hL = a :: as := by
      have hh := List.getLast?_eq_getLast L hL
      rw [hh] at hz
      exact Option.some_inj.mp hz
    rw [← hgl, List.dropLast_append_getLast]

/-- No line produced by rustLines contains a newline. -/
theorem mem_rustLines_no_nl (s : List Char) :
    ∀ l ∈ rustLines s, '\n' ∉ l := by
  intro l hl
  simp only [rustLines] at hl
  rcases List.mem_append.mp hl with h | h
  · obtain ⟨l0, hl0, rfl⟩ := List.mem_map.mp h
    have hl0' : l0 ∈ splitOnNl s := List.mem_of_mem_dropLast hl0
    intro hmem
    have hin : '\n' ∈ l0 := by
      by_cases hc : l0.getLast? = some '\r'
      · rw [stripCR, if_pos hc] at hmem
        exact List.mem_of_mem_dropLast hmem
      · rw [stripCR, if_neg hc] at hmem
        exact hmem
    exact mem_splitOnNl_no_nl s l0 hl0' hin
  · rcases hgl : (splitOnNl s).getLast? with _ | z
    · rw [hgl] at h
      simp at h
    · rw [hgl] at h
      cases z with
      | nil => simp at h
      | cons a as =>
        have hla : l = a :: as := by simpa using h
        subst hla
        exact mem_splitOnNl_no_nl s _ (mem_of_getLast?_eq _ _ hgl)

/-- A kept line is non-empty. -/
theorem keepLine_ne_nil (l : List Char) (h : keepLine l = true) : l ≠ [] := by
  intro hn
  subst hn
  exact absurd h (by decide)

/-- A newline join of already-trimmed, kept, newline-free lines is a fixed
point of the sanitizer. -/
theorem sanitize_fixed (K : List (List Char))
    (hkeep : ∀ l ∈ K, keepLine l = true)
    (htrim : ∀ l ∈ K, rustTrim l = l)
    (hnl : ∀ l ∈ K, '\n' ∉ l) :
    sanitize (List.intercalate ['\n'] K) = List.intercalate ['\n'] K := by
  cases K with
  | nil => rfl
  | cons k ks =>
    have hKne : (k :: ks) ≠ [] := by simp
    obtain ⟨z, hz⟩ : ∃ z, (k :: ks).getLast? = some z :=
      ⟨_, List.getLast?_eq_getLast (k :: ks) hKne⟩
    have hzmem : z ∈ k :: ks := mem_of_getLast?_eq _ z hz
    have hzne : z ≠ [] := keepLine_ne_nil z (hkeep z hzmem)
    have hjh : ∀ c, (List.intercalate ['\n'] (k :: ks)).head? = some c →
        isRustWS c = false := by
      intro c hc
      rw [head?_intercalate k ks (keepLine_ne_nil k (hkeep k (by simp)))] at hc
      rw [← htrim k (by simp)] at hc
      exact rustTrim_head? k c hc
    have hjl : ∀ c, (List.intercalate ['\n'] (k :: ks)).getLast? = some c →
        isRustWS c = false := by
      intro c hc
      rw [getLast?_intercalate (k :: ks) z hz hzne] at hc
      rw [← htrim z hzmem] at hc
      exact rustTrim_getLast? z c hc
    have htrimJ : rustTrim (List.intercalate ['\n'] (k :: ks))
        = List.intercalate ['\n'] (k :: ks) := rustTrim_eq_self _ hjh hjl
    have hcr : ∀ l ∈ (k :: ks), l.getLast? ≠ some '\r' := by
      intro l hl hc
      rw [← htrim l hl] at hc
      exact absurd (rustTrim_getLast? l '\r' hc) (by decide)
    have hne : ∀ l ∈ (k :: ks), l ≠ [] :=
      fun l hl => keepLine_ne_nil l (hkeep l hl)
    have hlines := rustLines_intercalate (k :: ks) hKne hnl hne hcr
    have hmapK : (k :: ks).map rustTrim = (k :: ks) := by
      calc (k :: ks).map rustTrim = (k :: ks).map id := List.map_congr_left htrim
        _ = k :: ks := List.map_id _
    have hfil : (k :: ks).filter keepLine = k :: ks := List.filter_eq_self.mpr hkeep
    show List.intercalate ['\n']
        (((rustLines (rustTrim (List.intercalate ['\n'] (k :: ks)))).map
          rustTrim).filter keepLine)
      = List.intercalate ['\n'] (k :: ks)
    rw [htrimJ, hlines, hmapK, hfil]

/-- C7: the response sanitizer is idempotent — applying it to its own
output returns that output unchanged, for every input string. -/
theorem sanitize_idempotent (raw : List Char) :
    sanitize (sanitize raw) = sanitize raw := by
  have h : sanitize raw = List.intercalate ['\n']
      (((rustLines (rustTrim raw)).map rustTrim).filter keepLine) := rfl
  rw [h]
  apply sanitize_fixed
  · exact fun l hl => (List.mem_filter.mp hl).2
  · intro l hl
    obtain ⟨l0, _, rfl⟩ := List.mem_map.mp (List.mem_filter.mp hl).1
    exact rustTrim_idem l0
  · intro l hl hmem
    obtain ⟨l0, hl0, rfl⟩ := List.mem_map.mp (List.mem_filter.mp hl).1
    exact mem_rustLines_no_nl (rustTrim raw) l0 hl0 (rustTrim_mem l0 '\n' hmem)
